import Mathlib

/-!
Verification of the godash terminal-dashboard launcher.

Each Go source file is shallowly embedded into Lean:
* `MainGo`   — `src/main.go` (bubbletea three-panel model: focus, cursors,
  activation preview) together with its tests in `src/unnamed/part_000`.
* `LaunchDir` — `src/unnamed/part_001` (`launchInDir`, env-gated shell helper).
* `Gocui2`   — `src/unnamed/part_002` (gocui variant with `pendingApp`
  handoff, signal classification, add-modal persistence).
* `Gocui3`   — `src/unnamed/part_003` (gocui variant that runs the child
  inside the key handler).

Go `int` cursors are modelled as `Nat`: every assignment in the source is a
guarded increment (`cursor < len-1`), a guarded decrement (`cursor > 0`) or
the literal `0`, so cursors are non-negative in every reachable execution,
and the Go comparisons `cursor > 0` / `cursor < len(items)-1` coincide with
their truncated-`Nat` counterparts on non-negative values.
-/

/-- `unicode.IsSpace`: the Unicode White_Space property, as implemented in
Go (the Latin-1 special cases `\t \n \v \f \r ' '`, U+0085 NEL, U+00A0 NBSP,
plus the White_Space table entries U+1680, U+2000–U+200A, U+2028, U+2029,
U+202F, U+205F, U+3000). -/
def isSpaceGo (c : Char) : Bool :=
  let n := c.toNat
  (0x9 ≤ n ∧ n ≤ 0xD) ∨ n = 0x20 ∨ n = 0x85 ∨ n = 0xA0 ∨ n = 0x1680 ∨
    (0x2000 ≤ n ∧ n ≤ 0x200A) ∨ n = 0x2028 ∨ n = 0x2029 ∨ n = 0x202F ∨
    n = 0x205F ∨ n = 0x3000

/-- Drop leading Unicode whitespace from a character list. -/
def dropLeadingSpace : List Char → List Char
  | [] => []
  | c :: rest => if isSpaceGo c then dropLeadingSpace rest else c :: rest

/-- `strings.TrimSpace`: remove leading and trailing Unicode whitespace
(`unicode.IsSpace` characters). -/
def trimSpace (s : String) : String :=
  String.mk ((dropLeadingSpace (dropLeadingSpace s.data).reverse).reverse)

namespace MainGo

/-- `type Panel int` with `PanelTUI = 0`, `PanelDirs = 1`, `PanelShortcuts = 2`. -/
def PanelTUI : Nat := 0

def PanelDirs : Nat := 1

def PanelShortcuts : Nat := 2

/-- `Item` record from `main.go`. -/
structure Item where
  Title : String
  Description : String
  Path : String
deriving DecidableEq, Repr

/-- The `Model` struct from `main.go` (width/height omitted: no claim touches
the window size, and no modelled operation reads it). -/
structure Model where
  focus : Nat
  topItems : List Item
  midItems : List Item
  bottomItems : List Item
  topCursor : Nat
  midCursor : Nat
  bottomCursor : Nat
  rightTitle : String
  rightBody : String
deriving DecidableEq, Repr

/-- `initialModel` from `main.go`: first panel focused, all cursors zero
(Go zero value), the three hard-coded item lists, empty right pane. -/
def initialModel : Model :=
  { focus := PanelTUI
    topItems :=
      [ { Title := "TUI Apps: Clock", Description := "A terminal clock widget", Path := "" }
      , { Title := "TUI Apps: Calendar", Description := "Calendar in terminal", Path := "" }
      , { Title := "TUI Apps: Notes", Description := "Notes app in terminal", Path := "" }
      , { Title := "TUI Apps: Todo", Description := "Tiny todo app", Path := "" } ]
    midItems :=
      [ { Title := "Dev Projects", Description := "", Path := "/home/you/projects" }
      , { Title := "Work", Description := "", Path := "/home/you/work" }
      , { Title := "Docs", Description := "", Path := "/home/you/docs" } ]
    bottomItems :=
      [ { Title := "Home", Description := "", Path := "/home/you" }
      , { Title := "Downloads", Description := "", Path := "/home/you/Downloads" }
      , { Title := "Configs", Description := "", Path := "/home/you/.config" } ]
    topCursor := 0
    midCursor := 0
    bottomCursor := 0
    rightTitle := ""
    rightBody := "" }

/-- `cycleFocus`: `m.focus = (m.focus + 1) % 3`. -/
def cycleFocus (m : Model) : Model :=
  { m with focus := (m.focus + 1) % 3 }

/-- `navigateUp`: guarded decrement of the focused panel's cursor; the
`switch` has no default case, so any other focus value leaves `m` unchanged. -/
def navigateUp (m : Model) : Model :=
  match m.focus with
  | 0 => if m.topCursor > 0 then { m with topCursor := m.topCursor - 1 } else m
  | 1 => if m.midCursor > 0 then { m with midCursor := m.midCursor - 1 } else m
  | 2 => if m.bottomCursor > 0 then { m with bottomCursor := m.bottomCursor - 1 } else m
  | _ => m

/-- `navigateDown`: guarded increment, clamped at `len(items)-1`. -/
def navigateDown (m : Model) : Model :=
  match m.focus with
  | 0 => if m.topCursor < m.topItems.length - 1 then { m with topCursor := m.topCursor + 1 } else m
  | 1 => if m.midCursor < m.midItems.length - 1 then { m with midCursor := m.midCursor + 1 } else m
  | 2 => if m.bottomCursor < m.bottomItems.length - 1 then { m with bottomCursor := m.bottomCursor + 1 } else m
  | _ => m

/-- The first split of `strings.SplitN(s, ":", 2)`: `some (before, after)`
when a colon occurs, `none` otherwise. -/
def splitFirstColon : List Char → Option (List Char × List Char)
  | [] => none
  | c :: rest =>
      if c = ':' then some ([], rest)
      else
        match splitFirstColon rest with
        | some (l, r) => some (c :: l, r)
        | none => none

/-- `halfName`: `strings.SplitN(title, ":", 2)`; when two parts exist return
the trimmed second part, otherwise the trimmed whole title. -/
def halfName (title : String) : String :=
  match splitFirstColon title.data with
  | some (_, after) => trimSpace (String.mk after)
  | none => trimSpace title

/-- `renderHTOPPreview`: the static HTOP-like preview block (`%%` in the Go
format string prints a single `%`). -/
def renderHTOPPreview (name : String) : String :=
  "Preview: " ++ name ++ "\nCPU  12%  [||        ]\nMem  47%  [||||      ]\nTasks 42 (threads: 6)\nUp 1d 2h"

/-- `activateCurrent`: on the focused panel, when the cursor is in range,
set the right pane to `"HTOP Preview: " ++ halfName(title)` and the synthetic
HTOP body; otherwise (and for an out-of-range focus) leave the model alone. -/
def activateCurrent (m : Model) : Model :=
  match m.focus with
  | 0 =>
      if h : m.topCursor < m.topItems.length then
        let it := m.topItems.get ⟨m.topCursor, h⟩
        let name := halfName it.Title
        { m with rightTitle := "HTOP Preview: " ++ name, rightBody := renderHTOPPreview name }
      else m
  | 1 =>
      if h : m.midCursor < m.midItems.length then
        let it := m.midItems.get ⟨m.midCursor, h⟩
        let name := halfName it.Title
        { m with rightTitle := "HTOP Preview: " ++ name, rightBody := renderHTOPPreview name }
      else m
  | 2 =>
      if h : m.bottomCursor < m.bottomItems.length then
        let it := m.bottomItems.get ⟨m.bottomCursor, h⟩
        let name := halfName it.Title
        { m with rightTitle := "HTOP Preview: " ++ name, rightBody := renderHTOPPreview name }
      else m
  | _ => m

/-- The focused panel's item list (`[]` for focus values outside the three
panels, where every panel operation is a no-op). -/
def focusItems (m : Model) : List Item :=
  match m.focus with
  | 0 => m.topItems
  | 1 => m.midItems
  | 2 => m.bottomItems
  | _ => []

/-- The focused panel's cursor. -/
def focusCursor (m : Model) : Nat :=
  match m.focus with
  | 0 => m.topCursor
  | 1 => m.midCursor
  | 2 => m.bottomCursor
  | _ => 0

/-- The logical input actions of `Update` in `main.go` that mutate panel
state: tab, up/k, down/j, enter/space. -/
inductive Op where
  | cycle
  | up
  | down
  | activate
deriving DecidableEq, Repr

/-- One `Update` dispatch step for a panel-mutating key. -/
def applyOp (m : Model) : Op → Model
  | .cycle => cycleFocus m
  | .up => navigateUp m
  | .down => navigateDown m
  | .activate => activateCurrent m

/-- A whole input sequence, applied left to right. -/
def applyOps (ops : List Op) (m : Model) : Model :=
  ops.foldl applyOp m

/-- The scalar effect of `navigateDown` on one cursor: a saturating
increment, clamped at `len - 1`. -/
def downStep (len c : Nat) : Nat :=
  if c < len - 1 then c + 1 else c

/-- The per-panel cursor invariant of the spec: in bounds when the panel has
entries, pinned to `0` when it is empty. -/
def cursorOK (c : Nat) (items : List Item) : Prop :=
  (items.length > 0 → c < items.length) ∧ (items.length = 0 → c = 0)

/-- All three panels' cursors satisfy `cursorOK`. -/
def Inv (m : Model) : Prop :=
  cursorOK m.topCursor m.topItems ∧ cursorOK m.midCursor m.midItems ∧
    cursorOK m.bottomCursor m.bottomItems

end MainGo

namespace LaunchDir

/-- The observable side effects of `launchInDir` (`src/unnamed/part_001`):
either an interactive `bash` child is spawned with its working directory set
to `dir` and stdio wired to the terminal, or a message is printed. -/
inductive LaunchEffect where
  | spawnShell (dir : String)
  | printMsg (msg : String)
deriving DecidableEq, Repr

/-- `launchInDir dir`, embedded over its environment:
`envVal` is `os.Getenv("GO_DASH_LAUNCH_IN_DIR")` (`""` when unset),
`isDir` is whether `os.Stat(dir)` succeeded with a directory, and
`childErr` is the error value of `cmd.Run()` on the spawned shell.
Returns the list of effects performed and the returned `error`
(`none` = `nil`). -/
def launchInDir (envVal : String) (isDir : Bool) (childErr : Option String)
    (dir : String) : List LaunchEffect × Option String :=
  if trimSpace envVal ≠ "" then
    if isDir then ([.spawnShell dir], childErr)
    else ([], some ("directory does not exist: " ++ dir))
  else ([.printMsg ("Would launch shell in: " ++ dir)], none)

end LaunchDir

namespace Gocui2

/-- `Application` record (`src/unnamed/part_002`). -/
structure Application where
  Name : String
  Command : String
deriving DecidableEq, Repr

/-- `Config` record: the list of applications. -/
structure Config where
  Applications : List Application
deriving DecidableEq, Repr

/-- The filesystem seen through `ioutil.ReadFile`/`ioutil.WriteFile`, by
path.  `encoding/json` is an external collaborator: `json.MarshalIndent` on a
`Config` is injective and `json.Unmarshal` inverts it, so a written file is
modelled by the marshalled `Config` value itself. -/
def FS : Type := String → Option Config

/-- `loadConfig`: read the file at `path` (an absent file is a read error)
and unmarshal it. -/
def loadConfig (path : String) (fs : FS) : Except String Config :=
  match fs path with
  | none => .error "read error"
  | some config => .ok config

/-- `writeConfig`: marshal the full application list and rewrite the file at
`path`. -/
def writeConfig (path : String) (apps : List Application) (fs : FS) : FS :=
  fun p => if p = path then some { Applications := apps } else fs p

/-- The trailing-newline strip loop of `trimViewText`, on the reversed
character list: drop leading `\n`/`\r`. -/
def stripRevNewlines : List Char → List Char
  | [] => []
  | c :: rest => if c = '\n' ∨ c = '\r' then stripRevNewlines rest else c :: rest

/-- `trimViewText`: the view buffer with all trailing `'\n'`/`'\r'` removed. -/
def trimViewText (text : String) : String :=
  String.mk (stripRevNewlines text.data.reverse).reverse

/-- `saveNewApp`, over the state it touches: the global `applications` list
and the filesystem; `nameBuf`/`cmdBuf` are the buffers of the `add_name` and
`add_cmd` views.  If either trimmed field is empty it returns at once;
otherwise it appends the new entry and rewrites `config.json` with the full
list (a write error is only logged, the in-memory append stands). -/
def saveNewApp (apps : List Application) (fs : FS) (nameBuf cmdBuf : String) :
    List Application × FS :=
  let name := trimViewText nameBuf
  let cmd := trimViewText cmdBuf
  if name = "" ∨ cmd = "" then (apps, fs)
  else
    let apps2 := apps ++ [{ Name := name, Command := cmd }]
    (apps2, writeConfig "config.json" apps2 fs)

/-- How the child of `runApplication` terminated: normal exit with a status
code, or killed by a signal (the two branches `syscall.WaitStatus` exposes
through `Exited()`/`Signaled()`). -/
inductive ChildTermination where
  | exited (code : Nat)
  | signaled (sig : Nat)
deriving DecidableEq, Repr

/-- `syscall.SIGINT`. -/
def sigINT : Nat := 2

/-- `syscall.SIGTERM`. -/
def sigTERM : Nat := 15

/-- Whether `cmd.Wait()` returned a non-nil error: `nil` exactly when the
child exited with status 0, a `*exec.ExitError` otherwise. -/
def waitFailed : ChildTermination → Bool
  | .exited 0 => false
  | .exited (_ + 1) => true
  | .signaled _ => true

/-- `exitError.Sys().(syscall.WaitStatus).Signal()`: the terminating signal
when the child was signaled, `-1` otherwise. -/
def terminationSignal : ChildTermination → Int
  | .exited _ => -1
  | .signaled sig => (sig : Int)

/-- The tail of `runApplication` after `cmd.Wait()` delivers on `done`
(`src/unnamed/part_002`, lines 289-307): returns `true` exactly when
"Error running command" is logged.  A non-nil wait error whose wait status
carries `SIGINT` or `SIGTERM` returns silently; any other non-nil error is
logged; the function returns (to the `main` loop) in every case. -/
def runApplicationLogsError (t : ChildTermination) : Bool :=
  if waitFailed t then
    if terminationSignal t = (sigINT : Int) ∨ terminationSignal t = (sigTERM : Int) then
      false
    else true
  else false

/-- What one iteration of the `for` loop in `main` does with the error
returned by `run()`. -/
inductive LoopAction where
  | resumeUI
  | exitProcess
  | panicProcess
deriving DecidableEq, Repr

/-- The errors `run()` can hand to the loop: the `ErrRestart` sentinel (a key
handler requested a launch), `gocui.ErrQuit`, or anything else. -/
inductive RunErr where
  | restart
  | quitErr
  | otherErr
deriving DecidableEq, Repr

/-- One iteration of the `main` loop of `src/unnamed/part_002`:
`ErrRestart` runs any pending application (whose logging is
`runApplicationLogsError`) and `continue`s back into `run()`;
`gocui.ErrQuit` breaks out; any other error panics. -/
def mainLoopStep : RunErr → LoopAction
  | .restart => .resumeUI
  | .quitErr => .exitProcess
  | .otherErr => .panicProcess

/-- Ordered actions on the exclusive terminal resource. -/
inductive Action where
  | initUI
  | closeUI
  | spawnChild
  | waitChild
deriving DecidableEq, Repr

/-- The terminal-action trace of one launch iteration of
`src/unnamed/part_002`: `run()` opens gocui; the Enter handler `runApp` only
records `pendingApp` and returns `ErrRestart`, so `MainLoop` returns and the
deferred `g.Close()` runs; back in `main`, `runApplication` starts and waits
for the child. -/
def launchIteration (selected : Option Application) : List Action :=
  [.initUI, .closeUI] ++
    (match selected with
     | some _ => [.spawnChild, .waitChild]
     | none => [])

end Gocui2

namespace Gocui3

/-- The terminal-action trace of one launch iteration of
`src/unnamed/part_003`: `run()` opens gocui; the Enter handler `runApp`
itself builds the command and calls `cmd.Run()` (spawn and wait) while
`MainLoop` is still executing, and only then returns `ErrRestart`, after
which the deferred `g.Close()` tears gocui down. -/
def launchIteration (selected : Option Gocui2.Application) : List Gocui2.Action :=
  [Gocui2.Action.initUI] ++
    (match selected with
     | some _ => [Gocui2.Action.spawnChild, Gocui2.Action.waitChild]
     | none => []) ++
    [Gocui2.Action.closeUI]

end Gocui3

namespace MainGo

/-- Splitting a focus value into the four cases of the Go `switch`. -/
theorem focus_cases (m : Model) :
    m.focus = 0 ∨ m.focus = 1 ∨ m.focus = 2 ∨ 3 ≤ m.focus := by
  omega

theorem navigateDown_focus0 (m : Model) (h : m.focus = 0) :
    navigateDown m = { m with topCursor := downStep m.topItems.length m.topCursor } := by
  obtain ⟨fo, ti, mi, bi, tc, mc, bc, rt, rb⟩ := m
  obtain rfl : fo = 0 := h
  by_cases hc : tc < ti.length - 1 <;>
    simp [navigateDown, downStep, hc]

theorem navigateDown_focus1 (m : Model) (h : m.focus = 1) :
    navigateDown m = { m with midCursor := downStep m.midItems.length m.midCursor } := by
  obtain ⟨fo, ti, mi, bi, tc, mc, bc, rt, rb⟩ := m
  obtain rfl : fo = 1 := h
  by_cases hc : mc < mi.length - 1 <;>
    simp [navigateDown, downStep, hc]

theorem navigateDown_focus2 (m : Model) (h : m.focus = 2) :
    navigateDown m = { m with bottomCursor := downStep m.bottomItems.length m.bottomCursor } := by
  obtain ⟨fo, ti, mi, bi, tc, mc, bc, rt, rb⟩ := m
  obtain rfl : fo = 2 := h
  by_cases hc : bc < bi.length - 1 <;>
    simp [navigateDown, downStep, hc]

theorem downStep_iterate (len : Nat) :
    ∀ n c, c < len → (downStep len)^[n] c = min (c + n) (len - 1) := by
  intro n
  induction n with
  | zero =>
      intro c hc
      simp [Function.iterate_zero]
      omega
  | succ n ih =>
      intro c hc
      rw [Function.iterate_succ_apply]
      by_cases hstep : c < len - 1
      · rw [show downStep len c = c + 1 from if_pos hstep]
        have := ih (c + 1) (by omega)
        omega
      · rw [show downStep len c = c from if_neg hstep]
        have := ih c hc
        omega

theorem navigateDown_iterate_focus0 (m : Model) (h : m.focus = 0) :
    ∀ n, navigateDown^[n] m =
      { m with topCursor := (downStep m.topItems.length)^[n] m.topCursor } := by
  intro n
  induction n with
  | zero => simp
  | succ n ih =>
      rw [Function.iterate_succ_apply', Function.iterate_succ_apply', ih]
      rw [navigateDown_focus0 _ (by simpa using h)]

theorem navigateDown_iterate_focus1 (m : Model) (h : m.focus = 1) :
    ∀ n, navigateDown^[n] m =
      { m with midCursor := (downStep m.midItems.length)^[n] m.midCursor } := by
  intro n
  induction n with
  | zero => simp
  | succ n ih =>
      rw [Function.iterate_succ_apply', Function.iterate_succ_apply', ih]
      rw [navigateDown_focus1 _ (by simpa using h)]

theorem navigateDown_iterate_focus2 (m : Model) (h : m.focus = 2) :
    ∀ n, navigateDown^[n] m =
      { m with bottomCursor := (downStep m.bottomItems.length)^[n] m.bottomCursor } := by
  intro n
  induction n with
  | zero => simp
  | succ n ih =>
      rw [Function.iterate_succ_apply', Function.iterate_succ_apply', ih]
      rw [navigateDown_focus2 _ (by simpa using h)]

theorem focusItems_ge3 (m : Model) (h : 3 ≤ m.focus) : focusItems m = [] := by
  obtain ⟨k, hk⟩ : ∃ k, m.focus = k + 3 := ⟨m.focus - 3, by omega⟩
  simp [focusItems, hk]

end MainGo

/-- C5: for every panel with a non-empty entry list and every in-range
starting cursor, applying `navigateDown` (moveCursor down) `len(entries)`
times leaves the focused panel's cursor at exactly `len(entries) - 1`:
the move saturates at the last index and never wraps around. -/
theorem MainGo.C5_moveDown_saturates (m : MainGo.Model)
    (hne : MainGo.focusItems m ≠ [])
    (hcur : MainGo.focusCursor m < (MainGo.focusItems m).length) :
    MainGo.focusCursor
        (MainGo.navigateDown^[(MainGo.focusItems m).length] m) =
      (MainGo.focusItems m).length - 1 := by
  rcases MainGo.focus_cases m with h | h | h | h
  · rw [MainGo.navigateDown_iterate_focus0 m h]
    have hitems : MainGo.focusItems m = m.topItems := by simp [MainGo.focusItems, h]
    have hcursor : MainGo.focusCursor m = m.topCursor := by simp [MainGo.focusCursor, h]
    rw [hitems] at hcur ⊢
    rw [hcursor] at hcur
    have hlen : 0 < m.topItems.length := by omega
    simp only [MainGo.focusCursor, h]
    rw [MainGo.downStep_iterate m.topItems.length m.topItems.length m.topCursor hcur]
    omega
  · rw [MainGo.navigateDown_iterate_focus1 m h]
    have hitems : MainGo.focusItems m = m.midItems := by simp [MainGo.focusItems, h]
    have hcursor : MainGo.focusCursor m = m.midCursor := by simp [MainGo.focusCursor, h]
    rw [hitems] at hcur ⊢
    rw [hcursor] at hcur
    have hlen : 0 < m.midItems.length := by omega
    simp only [MainGo.focusCursor, h]
    rw [MainGo.downStep_iterate m.midItems.length m.midItems.length m.midCursor hcur]
    omega
  · rw [MainGo.navigateDown_iterate_focus2 m h]
    have hitems : MainGo.focusItems m = m.bottomItems := by simp [MainGo.focusItems, h]
    have hcursor : MainGo.focusCursor m = m.bottomCursor := by simp [MainGo.focusCursor, h]
    rw [hitems] at hcur ⊢
    rw [hcursor] at hcur
    have hlen : 0 < m.bottomItems.length := by omega
    simp only [MainGo.focusCursor, h]
    rw [MainGo.downStep_iterate m.bottomItems.length m.bottomItems.length m.bottomCursor hcur]
    omega
  · exact absurd (MainGo.focusItems_ge3 m h) hne

/-- C5 witness: at the fresh initial model (top panel focused, 4 entries,
cursor 0), four `navigateDown`s land on index 3. -/
theorem MainGo.C5_moveDown_saturates_witness :
    MainGo.focusCursor
        (MainGo.navigateDown^[(MainGo.focusItems MainGo.initialModel).length]
          MainGo.initialModel) =
      (MainGo.focusItems MainGo.initialModel).length - 1 :=
  MainGo.C5_moveDown_saturates MainGo.initialModel (by decide) (by decide)

/-- C8: activating on a panel with zero entries is a no-op — for every model
whose focused panel's entry list is empty, `activateCurrent` returns the
model unchanged (in particular the right-pane title and body). -/
theorem MainGo.C8_activate_empty_noop (m : MainGo.Model)
    (h : MainGo.focusItems m = []) :
    MainGo.activateCurrent m = m := by
  obtain ⟨fo, ti, mi, bi, tc, mc, bc, rt, rb⟩ := m
  rcases MainGo.focus_cases ⟨fo, ti, mi, bi, tc, mc, bc, rt, rb⟩ with hf | hf | hf | hf
  · obtain rfl : fo = 0 := hf
    have hti : ti = [] := by simpa [MainGo.focusItems] using h
    subst hti
    simp [MainGo.activateCurrent]
  · obtain rfl : fo = 1 := hf
    have hmi : mi = [] := by simpa [MainGo.focusItems] using h
    subst hmi
    simp [MainGo.activateCurrent]
  · obtain rfl : fo = 2 := hf
    have hbi : bi = [] := by simpa [MainGo.focusItems] using h
    subst hbi
    simp [MainGo.activateCurrent]
  · obtain ⟨k, hk⟩ : ∃ k, fo = k + 3 := ⟨fo - 3, by simp at hf; omega⟩
    subst hk
    simp [MainGo.activateCurrent]

/-- C8 witness: a model focused on an empty first panel, with a non-trivial
right pane, is left exactly as it was. -/
theorem MainGo.C8_activate_empty_noop_witness :
    MainGo.activateCurrent
        { focus := 0, topItems := [], midItems := [], bottomItems := [],
          topCursor := 0, midCursor := 0, bottomCursor := 0,
          rightTitle := "old title", rightBody := "old body" } =
      { focus := 0, topItems := [], midItems := [], bottomItems := [],
        topCursor := 0, midCursor := 0, bottomCursor := 0,
        rightTitle := "old title", rightBody := "old body" } :=
  MainGo.C8_activate_empty_noop _ (by decide)

/-- C9: for every state of the three-panel layout, three applications of
`cycleFocus` restore the whole model (so in particular the originally
focused panel), and a single `cycleFocus` changes no panel's cursor. -/
theorem MainGo.C9_cycleFocus_period_three (m : MainGo.Model)
    (h : m.focus < 3) :
    MainGo.cycleFocus (MainGo.cycleFocus (MainGo.cycleFocus m)) = m ∧
    (MainGo.cycleFocus m).topCursor = m.topCursor ∧
    (MainGo.cycleFocus m).midCursor = m.midCursor ∧
    (MainGo.cycleFocus m).bottomCursor = m.bottomCursor := by
  refine ⟨?_, rfl, rfl, rfl⟩
  obtain ⟨fo, ti, mi, bi, tc, mc, bc, rt, rb⟩ := m
  have h3 : fo < 3 := h
  simp only [MainGo.cycleFocus]
  congr 1
  omega

/-- C9 witness: at the fresh initial model (focus on the first panel). -/
theorem MainGo.C9_cycleFocus_period_three_witness :
    MainGo.initialModel.focus < 3 ∧
    MainGo.cycleFocus (MainGo.cycleFocus (MainGo.cycleFocus MainGo.initialModel)) =
      MainGo.initialModel :=
  ⟨by decide, (MainGo.C9_cycleFocus_period_three MainGo.initialModel (by decide)).1⟩

/-- C1: what activating the first entry of the first panel at the fresh
initial state actually produces.  The first entry is named
"TUI Apps: Clock" with configured description "A terminal clock widget";
`activateCurrent` sets the preview title by the derived-name rule, but the
body is the synthetic HTOP block, not the entry's configured description —
contradicting the repository's own test `TestInitialActivationTop`, which
expects title "TUI Apps: Clock" and body "A terminal clock widget". -/
theorem MainGo.C1_initial_activation_eval :
    MainGo.initialModel.topItems.head? =
      some { Title := "TUI Apps: Clock", Description := "A terminal clock widget", Path := "" } ∧
    (MainGo.activateCurrent MainGo.initialModel).rightTitle = "HTOP Preview: Clock" ∧
    (MainGo.activateCurrent MainGo.initialModel).rightBody =
      MainGo.renderHTOPPreview "Clock" ∧
    (MainGo.activateCurrent MainGo.initialModel).rightBody ≠ "A terminal clock widget" ∧
    (MainGo.activateCurrent MainGo.initialModel).rightTitle ≠ "TUI Apps: Clock" := by
  refine ⟨by decide, by decide, by decide, by decide, by decide⟩

/-- Every single input operation preserves the per-panel cursor invariant. -/
theorem MainGo.applyOp_inv (m : MainGo.Model) (op : MainGo.Op)
    (h : MainGo.Inv m) : MainGo.Inv (MainGo.applyOp m op) := by
  obtain ⟨fo, ti, mi, bi, tc, mc, bc, rt, rb⟩ := m
  cases op with
  | cycle =>
      simpa [MainGo.applyOp, MainGo.cycleFocus, MainGo.Inv, MainGo.cursorOK] using h
  | up =>
      rcases fo with _ | (_ | (_ | fo))
      · simp only [MainGo.applyOp, MainGo.navigateUp]
        by_cases hc : tc > 0
        · rw [if_pos hc]
          simp only [MainGo.Inv, MainGo.cursorOK] at h ⊢
          omega
        · rw [if_neg hc]
          exact h
      · simp only [MainGo.applyOp, MainGo.navigateUp]
        by_cases hc : mc > 0
        · rw [if_pos hc]
          simp only [MainGo.Inv, MainGo.cursorOK] at h ⊢
          omega
        · rw [if_neg hc]
          exact h
      · simp only [MainGo.applyOp, MainGo.navigateUp]
        by_cases hc : bc > 0
        · rw [if_pos hc]
          simp only [MainGo.Inv, MainGo.cursorOK] at h ⊢
          omega
        · rw [if_neg hc]
          exact h
      · exact h
  | down =>
      rcases fo with _ | (_ | (_ | fo))
      · simp only [MainGo.applyOp, MainGo.navigateDown]
        by_cases hc : tc < ti.length - 1
        · rw [if_pos hc]
          simp only [MainGo.Inv, MainGo.cursorOK] at h ⊢
          omega
        · rw [if_neg hc]
          exact h
      · simp only [MainGo.applyOp, MainGo.navigateDown]
        by_cases hc : mc < mi.length - 1
        · rw [if_pos hc]
          simp only [MainGo.Inv, MainGo.cursorOK] at h ⊢
          omega
        · rw [if_neg hc]
          exact h
      · simp only [MainGo.applyOp, MainGo.navigateDown]
        by_cases hc : bc < bi.length - 1
        · rw [if_pos hc]
          simp only [MainGo.Inv, MainGo.cursorOK] at h ⊢
          omega
        · rw [if_neg hc]
          exact h
      · exact h
  | activate =>
      rcases fo with _ | (_ | (_ | fo))
      · simp only [MainGo.applyOp, MainGo.activateCurrent]
        split <;> simpa [MainGo.Inv, MainGo.cursorOK] using h
      · simp only [MainGo.applyOp, MainGo.activateCurrent]
        split <;> simpa [MainGo.Inv, MainGo.cursorOK] using h
      · simp only [MainGo.applyOp, MainGo.activateCurrent]
        split <;> simpa [MainGo.Inv, MainGo.cursorOK] using h
      · simpa [MainGo.applyOp, MainGo.activateCurrent, MainGo.Inv, MainGo.cursorOK] using h

/-- The invariant is preserved along any input sequence. -/
theorem MainGo.applyOps_inv (ops : List MainGo.Op) :
    ∀ m, MainGo.Inv m → MainGo.Inv (MainGo.applyOps ops m) := by
  induction ops with
  | nil => intro m h; simpa [MainGo.applyOps] using h
  | cons op ops ih =>
      intro m h
      simp only [MainGo.applyOps, List.foldl] at ih ⊢
      exact ih _ (MainGo.applyOp_inv m op h)

/-- The fresh initial model satisfies the invariant. -/
theorem MainGo.initialModel_inv : MainGo.Inv MainGo.initialModel := by
  simp [MainGo.Inv, MainGo.cursorOK, MainGo.initialModel]

/-- C6: after any sequence of input operations (cycle focus, move up, move
down, activate) applied to the initial state, every panel's cursor is in
`[0, len(entries))` whenever that panel has entries, and is `0` when that
panel is empty (cursors are `Nat`, so `0 ≤ cursor` throughout). -/
theorem MainGo.C6_cursor_invariant (ops : List MainGo.Op) :
    MainGo.Inv (MainGo.applyOps ops MainGo.initialModel) :=
  MainGo.applyOps_inv ops MainGo.initialModel MainGo.initialModel_inv

/-- C6 witness: a concrete input sequence exercising all four operations. -/
theorem MainGo.C6_cursor_invariant_witness :
    MainGo.Inv
      (MainGo.applyOps
        [MainGo.Op.down, MainGo.Op.cycle, MainGo.Op.up, MainGo.Op.activate]
        MainGo.initialModel) :=
  MainGo.C6_cursor_invariant [MainGo.Op.down, MainGo.Op.cycle, MainGo.Op.up, MainGo.Op.activate]

/-- C2: exit-status classification in `runApplication`.  If the child was
terminated by SIGINT or SIGTERM (the two forwarded signals), nothing is
logged; if `cmd.Wait` reported any other non-zero/error termination, a
failure is logged; in both cases the `main` loop handles the `ErrRestart`
sentinel by resuming the UI instead of exiting the host process. -/
theorem Gocui2.C2_exit_classification (t : Gocui2.ChildTermination) :
    ((Gocui2.terminationSignal t = (Gocui2.sigINT : Int) ∨
        Gocui2.terminationSignal t = (Gocui2.sigTERM : Int)) →
      Gocui2.runApplicationLogsError t = false ∧
        Gocui2.mainLoopStep .restart = .resumeUI) ∧
    ((Gocui2.waitFailed t = true ∧
        ¬(Gocui2.terminationSignal t = (Gocui2.sigINT : Int) ∨
          Gocui2.terminationSignal t = (Gocui2.sigTERM : Int))) →
      Gocui2.runApplicationLogsError t = true ∧
        Gocui2.mainLoopStep .restart = .resumeUI) := by
  constructor
  · intro hsig
    refine ⟨?_, rfl⟩
    cases t with
    | exited code =>
        exact absurd hsig (by simp [Gocui2.terminationSignal, Gocui2.sigINT, Gocui2.sigTERM])
    | signaled sig =>
        simp only [Gocui2.runApplicationLogsError, Gocui2.waitFailed, if_true]
        rw [if_pos hsig]
  · rintro ⟨hfail, hsig⟩
    refine ⟨?_, rfl⟩
    simp only [Gocui2.runApplicationLogsError]
    rw [if_pos hfail, if_neg hsig]

/-- C2 witness: a child killed by SIGINT logs nothing; a child exiting with
status 1 logs an error; both paths resume the UI loop. -/
theorem Gocui2.C2_exit_classification_witness :
    Gocui2.runApplicationLogsError (.signaled 2) = false ∧
    Gocui2.runApplicationLogsError (.exited 1) = true ∧
    Gocui2.mainLoopStep .restart = .resumeUI :=
  ⟨((Gocui2.C2_exit_classification (.signaled 2)).1 (by decide)).1,
   ((Gocui2.C2_exit_classification (.exited 1)).2 (by decide)).1,
   ((Gocui2.C2_exit_classification (.exited 1)).2 (by decide)).2⟩

/-- C3: in the `src/unnamed/part_003` variant the child is spawned *before*
the UI is torn down — `runApp` calls `cmd.Run()` inside the gocui key
handler and only afterwards returns `ErrRestart`, so the deferred
`g.Close()` runs after the child has already run; the index of `spawnChild`
precedes the index of `closeUI` in the launch trace.  The
`src/unnamed/part_002` variant does close the UI first, which is what the
comment in `part_003` ("we need to stop gocui and then run the command")
says should happen. -/
theorem Gocui3.C3_spawn_before_teardown :
    Gocui3.launchIteration (some { Name := "LazyGit", Command := "lazygit" }) =
      [Gocui2.Action.initUI, Gocui2.Action.spawnChild, Gocui2.Action.waitChild,
        Gocui2.Action.closeUI] ∧
    (Gocui3.launchIteration
        (some { Name := "LazyGit", Command := "lazygit" })).indexOf
        Gocui2.Action.spawnChild <
      (Gocui3.launchIteration
          (some { Name := "LazyGit", Command := "lazygit" })).indexOf
          Gocui2.Action.closeUI ∧
    Gocui2.launchIteration (some { Name := "LazyGit", Command := "lazygit" }) =
      [Gocui2.Action.initUI, Gocui2.Action.closeUI, Gocui2.Action.spawnChild,
        Gocui2.Action.waitChild] := by
  refine ⟨by decide, by decide, by decide⟩

/-- C4: round-trip law of the add-flow.  For any starting application list
and any new entry whose name and command are non-blank after trimming,
`saveNewApp` appends the entry, and `loadConfig` on the rewritten
`config.json` returns exactly the prior list with the new entry at the end
(prior entries unchanged, in order). -/
theorem Gocui2.C4_save_reload_roundtrip (apps : List Gocui2.Application)
    (fs : Gocui2.FS) (nameBuf cmdBuf : String)
    (hn : Gocui2.trimViewText nameBuf ≠ "")
    (hc : Gocui2.trimViewText cmdBuf ≠ "") :
    Gocui2.loadConfig "config.json"
        (Gocui2.saveNewApp apps fs nameBuf cmdBuf).2 =
      .ok { Applications := apps ++
        [{ Name := Gocui2.trimViewText nameBuf,
           Command := Gocui2.trimViewText cmdBuf }] } ∧
    (Gocui2.saveNewApp apps fs nameBuf cmdBuf).1 =
      apps ++ [{ Name := Gocui2.trimViewText nameBuf,
                 Command := Gocui2.trimViewText cmdBuf }] := by
  have hcond : ¬(Gocui2.trimViewText nameBuf = "" ∨ Gocui2.trimViewText cmdBuf = "") := by
    simp [hn, hc]
  constructor
  · simp only [Gocui2.saveNewApp]
    rw [if_neg hcond]
    simp [Gocui2.loadConfig, Gocui2.writeConfig]
  · simp only [Gocui2.saveNewApp]
    rw [if_neg hcond]

/-- C4 witness: starting from a one-entry list and an arbitrary file state,
adding "Notes" / "notes-tui" reloads as the old list plus the new entry. -/
theorem Gocui2.C4_save_reload_roundtrip_witness :
    Gocui2.loadConfig "config.json"
        (Gocui2.saveNewApp [{ Name := "LazyGit", Command := "lazygit" }]
          (fun _ => none) "Notes\n" "notes-tui\r\n").2 =
      .ok { Applications :=
        [{ Name := "LazyGit", Command := "lazygit" }] ++
          [{ Name := Gocui2.trimViewText "Notes\n",
             Command := Gocui2.trimViewText "notes-tui\r\n" }] } :=
  (Gocui2.C4_save_reload_roundtrip
    [{ Name := "LazyGit", Command := "lazygit" }] (fun _ => none)
    "Notes\n" "notes-tui\r\n" (by decide) (by decide)).1

/-- C7 counterexample: the claim as stated gates on the variable being
*non-empty*, but `launchInDir` gates on `strings.TrimSpace(v) != ""`: with
the variable set to the non-empty value `" "` and an existing directory, the
helper prints the dry-run message and spawns nothing. -/
theorem LaunchDir.C7_whitespace_env_counterexample :
    (" " : String) ≠ "" ∧
    LaunchDir.launchInDir " " true none "/home/you" =
      ([LaunchDir.LaunchEffect.printMsg "Would launch shell in: /home/you"], none) := by
  refine ⟨by decide, by decide⟩

/-- C7 (amended): with the variable set to a value that is non-empty *after
trimming whitespace* and the directory existing, `launchInDir` spawns the
interactive shell in that directory (returning the child's own result);
with the variable unset, empty, or whitespace-only, it only prints
"Would launch shell in: <dir>" and returns no error, spawning nothing. -/
theorem LaunchDir.C7_env_gate (envVal dir : String) (isDir : Bool)
    (childErr : Option String) :
    (trimSpace envVal ≠ "" → isDir = true →
      LaunchDir.launchInDir envVal isDir childErr dir =
        ([LaunchDir.LaunchEffect.spawnShell dir], childErr)) ∧
    (trimSpace envVal = "" →
      LaunchDir.launchInDir envVal isDir childErr dir =
        ([LaunchDir.LaunchEffect.printMsg ("Would launch shell in: " ++ dir)], none)) := by
  constructor
  · intro hne hdir
    subst hdir
    simp only [LaunchDir.launchInDir]
    rw [if_pos hne]
    simp
  · intro he
    simp only [LaunchDir.launchInDir]
    rw [if_neg (by simp [he])]

/-- C7 witness: with the variable set to "1" and an existing directory the
shell is spawned there; with it unset, or set to a single no-break space
(U+00A0, non-ASCII whitespace that `unicode.IsSpace` trims), the dry-run
message is printed. -/
theorem LaunchDir.C7_env_gate_witness :
    LaunchDir.launchInDir "1" true none "/home/you" =
      ([LaunchDir.LaunchEffect.spawnShell "/home/you"], none) ∧
    LaunchDir.launchInDir "" true none "/home/you" =
      ([LaunchDir.LaunchEffect.printMsg "Would launch shell in: /home/you"], none) ∧
    LaunchDir.launchInDir "\u00A0" true none "/home/you" =
      ([LaunchDir.LaunchEffect.printMsg "Would launch shell in: /home/you"], none) :=
  ⟨(LaunchDir.C7_env_gate "1" "/home/you" true none).1 (by decide) rfl,
   (LaunchDir.C7_env_gate "" "/home/you" true none).2 (by decide),
   (LaunchDir.C7_env_gate "\u00A0" "/home/you" true none).2 (by decide)⟩

/-- C10: in the add-entry flow, if either the name or the command field is
blank after stripping trailing newlines, `saveNewApp` is a complete no-op:
the application list and the filesystem are both returned unchanged. -/
theorem Gocui2.C10_blank_fields_noop (apps : List Gocui2.Application)
    (fs : Gocui2.FS) (nameBuf cmdBuf : String)
    (h : Gocui2.trimViewText nameBuf = "" ∨ Gocui2.trimViewText cmdBuf = "") :
    Gocui2.saveNewApp apps fs nameBuf cmdBuf = (apps, fs) := by
  simp only [Gocui2.saveNewApp]
  rw [if_pos h]

/-- C10 witness: a name buffer holding only a newline leaves a concrete
list/file state untouched. -/
theorem Gocui2.C10_blank_fields_noop_witness :
    Gocui2.saveNewApp [{ Name := "LazyGit", Command := "lazygit" }]
        (fun _ => none) "\n" "ls\n" =
      ([{ Name := "LazyGit", Command := "lazygit" }], fun _ => none) :=
  Gocui2.C10_blank_fields_noop [{ Name := "LazyGit", Command := "lazygit" }]
    (fun _ => none) "\n" "ls\n" (Or.inl (by decide))
